import Mathlib

/-!
Shallow embedding of the clock-discipline control core (core/sync/sync.go)
and of the authenticated NTP-over-SCION client (go/driver/ntp/scion.go) of
the scion-time repository, together with theorems settling the claims made
by the natural-language specification about those two files.

Conventions of the embedding:
  - Go `time.Duration` values and `time.Time` instants are integers counting
    nanoseconds (`ℤ`).
  - Go `float64` computations are modelled by exact rational arithmetic
    (`ℚ`); the relevant constants (1.25, 2.5, 1000.0) and the drift products
    appearing in the claims are exactly representable, and the single
    float-to-integer conversion used by the clamp is modelled explicitly as
    truncation toward zero.
  - A Go nil slice is `none`, a non-nil slice `some l`.
  - A panic is `none` (or a dedicated `crash` outcome), a returned Go error
    an explicit error value.
  - External collaborators that are not part of the two embedded files
    (estimators, timestamp conversions, `ValidateTimestamps`, the filter
    hook, the CMAC primitive) enter as explicit function parameters or
    oracle fields, so every theorem quantifies over their behavior.
-/

namespace ScionTime

/-! ## Durations, truncation, and the tier constants of core/sync -/

/-- Truncation of a rational toward zero, the semantics of the Go conversion
`time.Duration(x)` applied to a `float64` value `x`. -/
def truncQ (q : ℚ) : ℤ :=
  if 0 ≤ q then ⌊q⌋ else -⌊-q⌋

/-- The two discipline tiers: `.ref` is the reference-clock loop
(`RunLocalClockSync`), `.net` the network-clock loop (`RunGlobalClockSync`). -/
inductive Tier where
  | ref
  | net
deriving DecidableEq

/-- `refClkImpact = 1.25` and `netClkImpact = 2.5` (sync.go lines 21, 25). -/
def tierImpact : Tier → ℚ
  | .ref => 5 / 4
  | .net => 5 / 2

/-- `refClkCutoff = 0` and `netClkCutoff = time.Microsecond` in nanoseconds
(sync.go lines 22, 26). -/
def tierCutoff : Tier → ℤ
  | .ref => 0
  | .net => 1000

/-- `refClkInterval = 2 s` and `netClkInterval = 60 s` in nanoseconds
(sync.go lines 24, 28). -/
def tierIntervalNs : Tier → ℤ
  | .ref => 2 * 10 ^ 9
  | .net => 60 * 10 ^ 9

/-- `refClkTimeout = 1 s` in nanoseconds (sync.go line 23). -/
def refClkTimeoutNs : ℤ := 10 ^ 9

/-- A call made to the local clock by the discipline code.  Durations are in
nanoseconds, frequencies are the exact values of the Go floats. -/
inductive ClockCall where
  | step (d : ℤ)
  | adjust (offset interval : ℤ) (frequency : ℚ)
  | adjustWithTick (frequencyPPB : ℚ)
  | sleep (d : ℤ)
deriving DecidableEq

/-- The per-round data coming back from the two estimators:
`theilSen.GetOffsetNs` and the triple returned by `pll.AddSampleAndGetData`.
The estimator implementations live outside the embedded files, so a round is
parametrized by an arbitrary response function. -/
structure EstimatorOut where
  tsOffsetNs : ℚ
  pllCorrection : ℚ
  pllInterval : ℚ
  pllStartFreq : ℚ

/-- The observable effect of one loop iteration: the sample fed to
`theilSen.AddSample` and `pll.AddSampleAndGetData` (`none` when the dead zone
was hit), the local-clock calls issued, and the value the correction gauge
holds at the end of the round. -/
structure RoundResult where
  fed : Option ℤ
  calls : List ClockCall
  gauge : ℤ
deriving DecidableEq

/-- One iteration of the `for` loop shared by `RunLocalClockSync`
(sync.go lines 96-133) and `RunGlobalClockSync` (lines 166-202): cutoff test,
clamp, estimator feed, actuation, sleep.  `maxCorr` is the precomputed
`impact * float64(lclk.MaxDrift(interval))`; `est` answers for the two
estimators (arguments: the fed sample and the weight, which the code fixes to
1000.0); `toDur` stands for the external `timemath.Duration` float-to-duration
conversion used by `lclk.Adjust`; `corr` is the aggregated offset of this
round.  `timemath.Abs` and `timemath.Sign` are modelled from the spec as
integer absolute value and sign. -/
def syncRound (useTheilSen : Bool) (cutoff : ℤ) (maxCorr : ℚ)
    (intervalNs : ℤ) (est : ℤ → ℚ → EstimatorOut) (toDur : ℚ → ℤ)
    (corr : ℤ) : RoundResult :=
  if |corr| > cutoff then
    let corr' : ℤ :=
      if (|corr| : ℚ) > maxCorr then truncQ ((Int.sign corr : ℚ) * maxCorr)
      else corr
    let d := est corr' 1000
    let frequencyPPB : ℚ := d.tsOffsetNs / (intervalNs : ℚ) * 10 ^ 9
    let acts : List ClockCall :=
      if useTheilSen then
        if |frequencyPPB| > 0 then [ClockCall.adjustWithTick frequencyPPB]
        else []
      else
        if d.pllInterval > 0 then
          [ClockCall.adjust (toDur d.pllCorrection) (toDur d.pllInterval)
            d.pllStartFreq]
        else []
    ⟨some corr', acts ++ [ClockCall.sleep intervalNs], corr'⟩
  else
    ⟨none, [ClockCall.sleep intervalNs], 0⟩

/-- One round of a tier loop with the compiled-in constants of that tier,
given `maxDrift = lclk.MaxDrift(interval)` in nanoseconds. -/
def runSyncRound (t : Tier) (useTheilSen : Bool)
    (est : ℤ → ℚ → EstimatorOut) (toDur : ℚ → ℤ)
    (maxDrift corr : ℤ) : RoundResult :=
  syncRound useTheilSen (tierCutoff t) (tierImpact t * (maxDrift : ℚ))
    (tierIntervalNs t) est toDur corr

/-- One round of `RunLocalClockSync` (sync.go lines 76-134). -/
def RunLocalClockSyncRound := runSyncRound Tier.ref

/-- One round of `RunGlobalClockSync` (sync.go lines 143-203). -/
def RunGlobalClockSyncRound := runSyncRound Tier.net

/-! ## The registry of core/sync -/

/-- A handle stored in the network tier list: one of the caller-provided
network clocks, or the trailing `localReferenceClock` anchor. -/
inductive NetClk (α : Type) where
  | network (c : α)
  | localRef
deriving DecidableEq

/-- Measurement through a network-tier handle.
`localReferenceClock.MeasureClockOffset` (sync.go lines 42-45) always returns
offset 0 and no error; a caller clock `c` answers through `m c`. -/
def measureNetClk {α : Type} (m : α → ℤ × Option Unit) :
    NetClk α → ℤ × Option Unit
  | .network c => m c
  | .localRef => (0, none)

/-- The package-level registry of core/sync: the clock lists `refClks` and
`netClks` and the scratch slices `refClkOffsets` and `netClkOffsets`
(sync.go lines 33-40). -/
structure Registry (α : Type) where
  refClks : Option (List α)
  netClks : Option (List (NetClk α))
  refClkOffsets : List ℤ
  netClkOffsets : List ℤ
deriving DecidableEq

/-- The zero value of the package variables before any registration: both
clock slices nil, both scratch slices empty. -/
def Registry.start {α : Type} : Registry α := ⟨none, none, [], []⟩

/-- The network list as stored by registration: the argument with a trailing
`localReferenceClock` anchor appended exactly when it is non-empty
(sync.go lines 55-58; a nil argument stays nil). -/
def netClksOf {α : Type} : Option (List α) → Option (List (NetClk α))
  | none => none
  | some l =>
    if l.length ≠ 0 then some (l.map NetClk.network ++ [NetClk.localRef])
    else some (l.map NetClk.network)

/-- `RegisterClocks` (sync.go lines 47-60).  The result is `none` when the
call hits the "reference clocks already registered" panic, guarded by the
test `refClks != nil || netClks != nil`.  The scratch slices are allocated
with the lengths of the stored lists. -/
def RegisterClocks {α : Type} (s : Registry α)
    (refClocks netClocks : Option (List α)) : Option (Registry α) :=
  if s.refClks.isSome || s.netClks.isSome then none
  else
    some ⟨refClocks, netClksOf netClocks,
      List.replicate (refClocks.getD []).length 0,
      List.replicate ((netClksOf netClocks).getD []).length 0⟩

/-- Modelled from the spec: `client.MeasureClockOffsets` (package core/client,
not among the embedded files) measures each source under the shared deadline
and deposits the result into the slot of that source, depositing 0 on a
per-source failure or timeout. -/
def measureOffsets {α : Type} (m : α → ℤ × Option Unit) (clks : List α) :
    List ℤ :=
  clks.map fun c =>
    match m c with
    | (d, none) => d
    | (_, some _) => 0

/-- The registry-touching operations of the core/sync package: a
(re-)registration, or one measurement pass of a tier
(`measureOffsetToRefClocks` resp. `measureOffsetToNetClocks`). -/
inductive SyncOp (α : Type) where
  | register (refClocks netClocks : Option (List α))
  | measureRef (m : α → ℤ × Option Unit)
  | measureNet (m : α → ℤ × Option Unit)

/-- Effect of one package operation on the registry (`none` = panic). -/
def applySyncOp {α : Type} (s : Registry α) : SyncOp α → Option (Registry α)
  | .register r n => RegisterClocks s r n
  | .measureRef m =>
    some { s with refClkOffsets := measureOffsets m (s.refClks.getD []) }
  | .measureNet m =>
    some { s with
      netClkOffsets := measureOffsets (measureNetClk m) (s.netClks.getD []) }

/-! ## Median aggregation and SyncToRefClocks -/

/-- Modelled from the spec: `timemath.Median` (package base/timemath, not
among the embedded files).  Sort; odd length takes the middle element, even
length the mean of the two middle elements (the duration mean truncating
toward zero as Go integer division does); an empty list yields 0. -/
def median (xs : List ℤ) : ℤ :=
  let s := xs.insertionSort (· ≤ ·)
  let n := s.length
  if n = 0 then 0
  else if n % 2 = 1 then s.getD (n / 2) 0
  else Int.tdiv (s.getD (n / 2 - 1) 0 + s.getD (n / 2) 0) 2

/-- `SyncToRefClocks` (sync.go lines 69-74): one aggregation of the reference
clocks under `refClkTimeout`, then a single `lclk.Step` when the median is
non-zero.  `measure` maps the timeout handed to `measureOffsetToRefClocks` to
the offsets its measurement pass deposits; the returned list holds the
local-clock calls the function makes. -/
def SyncToRefClocks (measure : ℤ → List ℤ) : List ClockCall :=
  let corr := median (measure refClkTimeoutNs)
  if corr ≠ 0 then [ClockCall.step corr] else []

/-! ## Helper lemmas about truncation -/

theorem truncQ_nonneg_le {q : ℚ} (h : 0 ≤ q) : (truncQ q : ℚ) ≤ q := by
  simp only [truncQ, if_pos h]
  exact Int.floor_le q

theorem truncQ_nonneg {q : ℚ} (h : 0 ≤ q) : 0 ≤ truncQ q := by
  simp only [truncQ, if_pos h]
  exact Int.floor_nonneg.mpr h

theorem truncQ_neg_eq (q : ℚ) : truncQ (-q) = -truncQ q := by
  rcases lt_trichotomy q 0 with h | h | h
  · rw [truncQ, truncQ, if_pos (by linarith), if_neg (by linarith), neg_neg]
  · subst h
    simp [truncQ]
  · rw [truncQ, truncQ, if_neg (by linarith), if_pos h.le, neg_neg]

theorem truncQ_intCast (m : ℤ) : truncQ (m : ℚ) = m := by
  rcases le_or_lt 0 (m : ℚ) with h | h
  · rw [truncQ, if_pos h, Int.floor_intCast]
  · rw [truncQ, if_neg (not_le.mpr h), ← Int.cast_neg, Int.floor_intCast,
      neg_neg]

theorem truncQ_intMul (a b : ℤ) : truncQ ((a : ℚ) * (b : ℚ)) = a * b := by
  rw [← Int.cast_mul, truncQ_intCast]

theorem abs_truncQ_le {q : ℚ} (h : 0 ≤ q) : |(truncQ q : ℚ)| ≤ q := by
  rw [abs_of_nonneg (by exact_mod_cast truncQ_nonneg h)]
  exact truncQ_nonneg_le h

theorem tierImpact_pos (t : Tier) : 0 < tierImpact t := by
  cases t <;> norm_num [tierImpact]

theorem tierCutoff_nonneg (t : Tier) : 0 ≤ tierCutoff t := by
  cases t <;> decide

theorem runSyncRound_fed (t : Tier) (u : Bool) (e : ℤ → ℚ → EstimatorOut)
    (td : ℚ → ℤ) (maxDrift corr : ℤ) (hcut : |corr| > tierCutoff t) :
    (runSyncRound t u e td maxDrift corr).fed =
      some (if (|corr| : ℚ) > tierImpact t * (maxDrift : ℚ) then
        truncQ ((Int.sign corr : ℚ) * (tierImpact t * (maxDrift : ℚ)))
      else corr) := by
  rw [runSyncRound, syncRound, if_pos hcut]

/-- C1 (amended): in every round of `RunLocalClockSync` (tier `Tier.ref`) and
`RunGlobalClockSync` (tier `Tier.net`) whose aggregated offset exceeds the
tier cutoff, the sample fed to `theilSen.AddSample` and
`pll.AddSampleAndGetData` obeys the clamp law
`|fed| ≤ impact * MaxDrift(interval)`: an aggregated offset whose absolute
value is within the ceiling passes through unchanged, and one above the
ceiling is replaced by `sign(corr) * impact * MaxDrift(interval)` truncated
toward zero to a whole nanosecond by the Go `time.Duration` conversion —
which is exactly `sign(corr) * impact * MaxDrift(interval)` whenever the
ceiling is a whole number of nanoseconds.  In particular, on the reference
tier with `MaxDrift(2 s) = 10 µs` the ceiling is `12.5 µs` and an aggregated
`+500 µs` is fed as exactly `+12.5 µs` (last conjunct). -/
theorem clamp_law (t : Tier) (useTheilSen : Bool)
    (est : ℤ → ℚ → EstimatorOut) (toDur : ℚ → ℤ) (maxDrift corr : ℤ)
    (hdrift : 0 < maxDrift) (hcut : |corr| > tierCutoff t) :
    ∃ c : ℤ,
      (runSyncRound t useTheilSen est toDur maxDrift corr).fed = some c ∧
      (|c| : ℚ) ≤ tierImpact t * (maxDrift : ℚ) ∧
      ((|corr| : ℚ) ≤ tierImpact t * (maxDrift : ℚ) → c = corr) ∧
      (tierImpact t * (maxDrift : ℚ) < (|corr| : ℚ) →
        c = truncQ ((Int.sign corr : ℚ) * (tierImpact t * (maxDrift : ℚ)))) ∧
      (∀ m : ℤ, tierImpact t * (maxDrift : ℚ) = (m : ℚ) →
        tierImpact t * (maxDrift : ℚ) < (|corr| : ℚ) →
        c = Int.sign corr * m) ∧
      (RunLocalClockSyncRound useTheilSen est toDur 10000 500000).fed =
        some 12500 := by
  have hmd : (0 : ℚ) < (maxDrift : ℚ) := by exact_mod_cast hdrift
  have hmc : (0 : ℚ) < tierImpact t * (maxDrift : ℚ) :=
    mul_pos (tierImpact_pos t) hmd
  have hcorr0 : corr ≠ 0 := by
    intro h
    subst h
    simp only [abs_zero] at hcut
    exact absurd hcut (not_lt.mpr (tierCutoff_nonneg t))
  have hex : (RunLocalClockSyncRound useTheilSen est toDur 10000 500000).fed =
      some 12500 := by
    rw [RunLocalClockSyncRound,
      runSyncRound_fed Tier.ref useTheilSen est toDur 10000 500000 (by decide)]
    have hs : Int.sign (500000 : ℤ) = 1 := by decide
    rw [hs]
    norm_num [tierImpact, truncQ]
  rw [runSyncRound_fed t useTheilSen est toDur maxDrift corr hcut]
  by_cases hgt : (|corr| : ℚ) > tierImpact t * (maxDrift : ℚ)
  · refine ⟨truncQ ((Int.sign corr : ℚ) * (tierImpact t * (maxDrift : ℚ))),
      by rw [if_pos hgt], ?_, ?_, fun _ => rfl, ?_, hex⟩
    · rcases lt_or_gt_of_ne hcorr0 with hneg | hpos
      · have hs : Int.sign corr = -1 := Int.sign_eq_neg_one_iff_neg.mpr hneg
        rw [hs]
        push_cast
        rw [neg_one_mul, truncQ_neg_eq]
        push_cast
        rw [abs_neg]
        exact abs_truncQ_le hmc.le
      · have hs : Int.sign corr = 1 := Int.sign_eq_one_iff_pos.mpr hpos
        rw [hs]
        push_cast
        rw [one_mul]
        exact abs_truncQ_le hmc.le
    · intro hle
      exact absurd hgt (not_lt.mpr hle)
    · intro m hm _
      rw [hm, truncQ_intMul]
  · refine ⟨corr, by rw [if_neg hgt], ?_, fun _ => rfl, ?_, ?_, hex⟩
    · exact not_lt.mp hgt
    · intro hlt
      exact absurd hlt hgt
    · intro m _ hlt
      exact absurd hlt hgt

/-- Witness for `clamp_law`: reference tier, `MaxDrift = 10 µs`, aggregated
offset `+500 µs`. -/
theorem clamp_law_witness :
    ∃ c : ℤ,
      (runSyncRound Tier.ref false (fun _ _ => ⟨0, 0, 0, 0⟩) (fun _ => 0)
          10000 500000).fed = some c ∧
      (|c| : ℚ) ≤ tierImpact Tier.ref * ((10000 : ℤ) : ℚ) := by
  obtain ⟨c, h1, h2, -⟩ :=
    clamp_law Tier.ref false (fun _ _ => ⟨0, 0, 0, 0⟩) (fun _ => 0)
      10000 500000 (by decide) (by decide)
  exact ⟨c, h1, h2⟩

/-- C1 as frozen is false on the code: on the reference tier with
`MaxDrift(2 s) = 2 ns` the ceiling is `1.25 * 2 = 2.5 ns`, and an aggregated
`+100 ns` is fed as `+2 ns` — the Go `time.Duration` conversion truncates the
float product — not as `sign(corr) * impact * MaxDrift(interval) = +2.5 ns`
which the claim prescribes. -/
theorem clamp_law_exact_counterexample :
    (RunLocalClockSyncRound false (fun _ _ => ⟨0, 0, 0, 0⟩) (fun _ => 0)
        2 100).fed = some 2 ∧
    (2 : ℚ) ≠ (Int.sign (100 : ℤ) : ℚ) *
      (tierImpact Tier.ref * ((2 : ℤ) : ℚ)) := by
  have hs : Int.sign (100 : ℤ) = 1 := by decide
  constructor
  · rw [RunLocalClockSyncRound,
      runSyncRound_fed Tier.ref false _ _ 2 100 (by decide), hs]
    norm_num [tierImpact, truncQ]
  · rw [hs]
    norm_num [tierImpact]

/-- C2: a round of either tier loop whose aggregated offset lies within the
tier dead zone (cutoff 0 for `RunLocalClockSync`, 1 µs for
`RunGlobalClockSync`) feeds no sample to either estimator — the estimators
are not consulted at all — issues none of `Step`/`Adjust`/`AdjustWithTick`,
leaves the correction gauge at 0, and proceeds directly to sleeping for the
tier interval. -/
theorem dead_zone (t : Tier) (useTheilSen : Bool)
    (est : ℤ → ℚ → EstimatorOut) (toDur : ℚ → ℤ) (maxDrift corr : ℤ)
    (h : |corr| ≤ tierCutoff t) :
    runSyncRound t useTheilSen est toDur maxDrift corr =
      ⟨none, [ClockCall.sleep (tierIntervalNs t)], 0⟩ ∧
    (∀ est' : ℤ → ℚ → EstimatorOut,
      runSyncRound t useTheilSen est' toDur maxDrift corr =
        runSyncRound t useTheilSen est toDur maxDrift corr) ∧
    tierCutoff Tier.ref = 0 ∧ tierCutoff Tier.net = 1000 := by
  have hmain : ∀ est' : ℤ → ℚ → EstimatorOut,
      runSyncRound t useTheilSen est' toDur maxDrift corr =
        ⟨none, [ClockCall.sleep (tierIntervalNs t)], 0⟩ := by
    intro est'
    rw [runSyncRound, syncRound, if_neg (not_lt.mpr h)]
  exact ⟨hmain est, fun est' => (hmain est').trans (hmain est).symm, rfl, rfl⟩

/-- Witness for `dead_zone`: network tier, aggregated offset `+800 ns`, which
is within the 1 µs cutoff. -/
theorem dead_zone_witness :
    runSyncRound Tier.net true (fun _ _ => ⟨1, 1, 1, 1⟩) (fun _ => 0) 5 800 =
      ⟨none, [ClockCall.sleep (tierIntervalNs Tier.net)], 0⟩ :=
  (dead_zone Tier.net true (fun _ _ => ⟨1, 1, 1, 1⟩) (fun _ => 0) 5 800
    (by decide)).1

theorem registerClocks_inv {α : Type} {s : Registry α}
    {refClocks netClocks : Option (List α)} {s' : Registry α}
    (h : RegisterClocks s refClocks netClocks = some s') :
    s.refClks = none ∧ s.netClks = none ∧
    s' = ⟨refClocks, netClksOf netClocks,
      List.replicate (refClocks.getD []).length 0,
      List.replicate ((netClksOf netClocks).getD []).length 0⟩ := by
  rw [RegisterClocks] at h
  by_cases hg : (s.refClks.isSome || s.netClks.isSome) = true
  · rw [if_pos hg] at h
    cases h
  · rw [if_neg hg] at h
    have h1 : s.refClks = none := by
      cases hsr : s.refClks with
      | none => rfl
      | some v => rw [hsr] at hg; simp at hg
    have h2 : s.netClks = none := by
      cases hsn : s.netClks with
      | none => rfl
      | some v => rw [hsn] at hg; simp at hg
    exact ⟨h1, h2, (Option.some.inj h).symm⟩

theorem netClksOf_ne_none {α : Type} {netClocks : Option (List α)}
    (h : netClocks ≠ none) : netClksOf netClocks ≠ none := by
  cases netClocks with
  | none => exact absurd rfl h
  | some l =>
    by_cases hl : l.length ≠ 0
    · rw [netClksOf, if_pos hl]
      exact Option.some_ne_none _
    · rw [netClksOf, if_neg hl]
      exact Option.some_ne_none _

/-- C8 (amended): after a successful `RegisterClocks(refClocks, netClocks)`
the stored network sequence is `netClocks` with one trailing local trivial
clock appended when `netClocks` is non-empty and without an anchor when it is
empty or nil; the anchor measures offset 0 with no error; both scratch slices
have exactly the lengths of their clock lists; and no measurement operation
of the package ever changes those lengths or lists — only a further
`RegisterClocks` can, and such a call succeeds only from a state in which the
earlier call registered nothing at all (both arguments nil). -/
theorem RegisterClocks_shape {α : Type} (s s' : Registry α)
    (refClocks netClocks : Option (List α))
    (h : RegisterClocks s refClocks netClocks = some s') :
    s'.refClks = refClocks ∧
    (∀ l, netClocks = some l → l ≠ [] →
      s'.netClks = some (l.map NetClk.network ++ [NetClk.localRef])) ∧
    (netClocks = none → s'.netClks = none) ∧
    (netClocks = some [] → s'.netClks = some []) ∧
    s'.refClkOffsets.length = (s'.refClks.getD []).length ∧
    s'.netClkOffsets.length = (s'.netClks.getD []).length ∧
    (∀ m : α → ℤ × Option Unit, measureNetClk m NetClk.localRef = (0, none)) ∧
    (∀ op : SyncOp α, (∀ r n, op ≠ SyncOp.register r n) →
      ∃ s'', applySyncOp s' op = some s'' ∧
        s''.refClks = s'.refClks ∧ s''.netClks = s'.netClks ∧
        s''.refClkOffsets.length = s'.refClkOffsets.length ∧
        s''.netClkOffsets.length = s'.netClkOffsets.length) ∧
    (∀ r n s₂, RegisterClocks s' r n = some s₂ →
      s'.refClks = none ∧ s'.netClks = none) := by
  obtain ⟨-, -, rfl⟩ := registerClocks_inv h
  refine ⟨rfl, ?_, ?_, ?_, by simp, by simp, fun _ => rfl, ?_, ?_⟩
  · intro l hl hne
    subst hl
    have : l.length ≠ 0 := by
      simpa using fun hz => hne (List.length_eq_zero.mp hz)
    simp [netClksOf, if_pos this]
  · intro hl
    subst hl
    rfl
  · intro hl
    subst hl
    simp [netClksOf]
  · intro op hop
    cases op with
    | register r n => exact absurd rfl (hop r n)
    | measureRef m =>
      refine ⟨_, rfl, rfl, rfl, ?_, rfl⟩
      simp [measureOffsets]
    | measureNet m =>
      refine ⟨_, rfl, rfl, rfl, rfl, ?_⟩
      simp [measureOffsets]
  · intro r n s₂ h₂
    exact ⟨(registerClocks_inv h₂).1, (registerClocks_inv h₂).2.1⟩

/-- Witness for `RegisterClocks_shape`: registering one reference clock and
one network clock from the start state appends the anchor and sizes both
scratch slices. -/
theorem RegisterClocks_shape_witness :
    (RegisterClocks (Registry.start (α := Unit)) (some [()]) (some [()])).map
        (fun s' => s'.netClks) =
      some (some [NetClk.network (), NetClk.localRef]) := by
  have h : RegisterClocks (Registry.start (α := Unit)) (some [()]) (some [()]) =
      some ⟨some [()], some [NetClk.network (), NetClk.localRef], [0], [0, 0]⟩ :=
    rfl
  obtain ⟨-, h2, -⟩ := RegisterClocks_shape _ _ (some [()]) (some [()]) h
  rw [h]
  exact congrArg some (h2 [()] rfl (by simp))

/-- C8 as frozen is false on the code: `RegisterClocks(nil, nil)` succeeds
and stores nothing, after which a second `RegisterClocks` — an operation of
the package — succeeds as well and changes `len(refClkOffsets)` from 0 to 1,
so the lengths are not unchangeable after every successful call. -/
theorem RegisterClocks_lengths_counterexample :
    RegisterClocks (Registry.start (α := Unit)) none none =
      some ⟨none, none, [], []⟩ ∧
    RegisterClocks (⟨none, none, [], []⟩ : Registry Unit) (some [()]) none =
      some ⟨some [()], none, [0], []⟩ ∧
    ([0] : List ℤ).length ≠ ([] : List ℤ).length :=
  ⟨rfl, rfl, by decide⟩

/-- C9 (amended): a first `RegisterClocks` from the start state of the
package never panics; after any successful call that registered at least one
non-nil slice, every further `RegisterClocks` panics with "reference clocks
already registered"; only when the first call passed two nil slices does the
registry remain unregistered, so that a later call does not panic. -/
theorem RegisterClocks_once {α : Type} (refClocks netClocks : Option (List α)) :
    RegisterClocks (Registry.start (α := α)) refClocks netClocks ≠ none ∧
    (∀ s s' : Registry α, RegisterClocks s refClocks netClocks = some s' →
      refClocks ≠ none ∨ netClocks ≠ none →
      ∀ r n, RegisterClocks s' r n = none) := by
  constructor
  · rw [RegisterClocks]
    simp [Registry.start]
  · intro s s' h hne r n
    obtain ⟨-, -, rfl⟩ := registerClocks_inv h
    rw [RegisterClocks]
    rcases hne with hne | hne
    · have : refClocks.isSome := Option.ne_none_iff_isSome.mp hne
      simp [this]
    · have : (netClksOf netClocks).isSome :=
        Option.ne_none_iff_isSome.mp (netClksOf_ne_none hne)
      simp [this]

/-- Witness for `RegisterClocks_once`: a first call registering one reference
clock succeeds, after which a second call panics. -/
theorem RegisterClocks_once_witness :
    RegisterClocks (Registry.start (α := Unit)) (some [()]) none ≠ none ∧
    RegisterClocks (⟨some [()], none, [0], []⟩ : Registry Unit) none none =
      none := by
  have h := RegisterClocks_once (α := Unit) (some [()]) none
  refine ⟨h.1, ?_⟩
  exact h.2 Registry.start ⟨some [()], none, [0], []⟩ rfl
    (Or.inl (Option.some_ne_none _)) none none

/-- C9 as frozen is false on the code: a first `RegisterClocks(nil, nil)`
call succeeds, stores two nil slices, and a second call made afterwards does
not panic (the guard `refClks != nil || netClks != nil` sees two nil
slices). -/
theorem RegisterClocks_once_counterexample :
    RegisterClocks (Registry.start (α := Unit)) none none =
      some ⟨none, none, [], []⟩ ∧
    RegisterClocks (⟨none, none, [], []⟩ : Registry Unit)
      (some [()]) (some [()]) ≠ none :=
  ⟨rfl, by rw [RegisterClocks]; simp⟩

/-- C10: `SyncToRefClocks` performs exactly one reference-tier aggregation —
the median of the per-source offsets deposited under the 1 s
`refClkTimeout` — and calls `lclk.Step` exactly once with that median if and
only if it is non-zero; a zero median leaves the local clock untouched.
With two sources measuring +1 s and +1.2 s the single call is
`Step(+1.1 s)`. -/
theorem SyncToRefClocks_step (measure : ℤ → List ℤ) :
    (median (measure refClkTimeoutNs) ≠ 0 →
      SyncToRefClocks measure =
        [ClockCall.step (median (measure refClkTimeoutNs))]) ∧
    (median (measure refClkTimeoutNs) = 0 → SyncToRefClocks measure = []) ∧
    SyncToRefClocks (fun _ => [10 ^ 9, 12 * 10 ^ 8]) =
      [ClockCall.step (11 * 10 ^ 8)] := by
  refine ⟨fun h => ?_, fun h => ?_, ?_⟩
  · rw [SyncToRefClocks, if_pos h]
  · rw [SyncToRefClocks, if_neg (by simpa using h)]
  · have hm : median [10 ^ 9, 12 * 10 ^ 8] = 11 * 10 ^ 8 := by decide
    rw [SyncToRefClocks]
    simp only [hm]
    norm_num

/-- Witness for `SyncToRefClocks_step`: sources measuring +1 s and +1.2 s
make `SyncToRefClocks` issue the single call `Step(+1.1 s)`. -/
theorem SyncToRefClocks_step_witness :
    SyncToRefClocks (fun _ => [10 ^ 9, 12 * 10 ^ 8]) =
      [ClockCall.step (11 * 10 ^ 8)] := by
  have h := (SyncToRefClocks_step (fun _ => [10 ^ 9, 12 * 10 ^ 8])).1
    (by decide)
  simpa using h

/-! ## The NTP-over-SCION client: data model -/

/-- A 64-bit NTP timestamp (`ntp.Time64`): seconds and fraction words. -/
structure Time64 where
  seconds : ℕ
  fraction : ℕ
deriving DecidableEq

/-- The zero timestamp left in unset packet fields. -/
def Time64.zero : Time64 := ⟨0, 0⟩

/-- The per-server previous-exchange memory of the client
(`SCIONClient.prev`, scion.go lines 38-43). -/
structure PrevExchange where
  reference : String
  cTxTime : Time64
  cRxTime : Time64
  sRxTime : Time64
deriving DecidableEq

/-- The origin/receive/transmit fields of the outgoing NTP request. -/
structure NtpRequest where
  originTime : Time64
  receiveTime : Time64
  transmitTime : Time64
deriving DecidableEq

/-- One second in nanoseconds (`time.Second`). -/
def secondNs : ℤ := 10 ^ 9

/-- Construction of the three timestamp fields of the outgoing request
(scion.go lines 107-120).  `conv` is the external `ntp.TimeFromTime64`,
`conv64` the external `ntp.Time64FromTime`, `reference` the string
`remoteAddr.IA + "," + remoteAddr.Host`, and `cTxTime0` this round fresh TX
instant in nanoseconds.  A `Packet{}` starts zeroed, so the fresh branch
leaves origin and receive at zero. -/
def buildRequest (interleavedMode : Bool) (prev : PrevExchange)
    (reference : String) (conv : Time64 → ℤ) (conv64 : ℤ → Time64)
    (cTxTime0 : ℤ) : NtpRequest :=
  if interleavedMode = true ∧ reference = prev.reference ∧
      cTxTime0 - conv prev.cTxTime ≤ secondNs then
    ⟨prev.sRxTime, prev.cRxTime, prev.cTxTime⟩
  else
    ⟨Time64.zero, Time64.zero, conv64 cTxTime0⟩

/-- Modelled from the spec: the SPAO constants of package net/scion (client
SPI, server SPI, CMAC algorithm identifier).  Their concrete numeric values
are outside the embedded files; only the comparisons against them matter. -/
def PacketAuthClientSPI : ℕ := 1

/-- Modelled from the spec: the server SPI constant, distinct from the
client one. -/
def PacketAuthServerSPI : ℕ := 2

/-- Modelled from the spec: the CMAC algorithm identifier byte. -/
def PacketAuthAlgorithm : ℕ := 0

/-- `scion.PacketAuthOptDataLen`: 4 SPI + 1 algorithm + 7 metadata +
16 MAC bytes. -/
def PacketAuthOptDataLen : ℕ := 28

/-- `scion.PacketAuthMetadataLen`: the 12 bytes preceding the MAC. -/
def PacketAuthMetadataLen : ℕ := 12

/-- Byte strings (IP addresses, option data). -/
abbrev Bytes := List ℕ

/-- The 28-byte authenticator option data written into the outgoing request
(scion.go lines 180-213): big-endian client SPI, algorithm byte, seven zero
metadata bytes, then the 16-byte CMAC computed by the external
`spao.ComputeAuthCMAC`. -/
def clientAuthOptData (mac : Bytes) : Bytes :=
  [PacketAuthClientSPI / 2 ^ 24 % 256, PacketAuthClientSPI / 2 ^ 16 % 256,
   PacketAuthClientSPI / 2 ^ 8 % 256, PacketAuthClientSPI % 256,
   PacketAuthAlgorithm, 0, 0, 0, 0, 0, 0, 0] ++ mac

/-- The authenticator option carried by the outgoing packet: present exactly
when a DRKey fetcher is configured and the host-host key fetch succeeded
(scion.go lines 165-230; on a failed fetch the packet is sent without an E2E
extension). -/
def outgoingAuthOption (drkeyConfigured fetchOk : Bool) (mac : Bytes) :
    Option Bytes :=
  if drkeyConfigured = true ∧ fetchOk = true then some (clientAuthOptData mac)
  else none

/-- The 4-in-6 test of `netip.Addr.Is4In6`: a 16-byte address in
`::ffff:0:0/96`. -/
def is4In6 (x : Bytes) : Bool :=
  decide (x.take 12 = [0, 0, 0, 0, 0, 0, 0, 0, 0, 0, 255, 255])

/-- `compareIPs` (scion.go lines 48-61) restricted to the equality test the
client performs (`== 0`): fold a 4-in-6 mapped address to its 4-byte form,
then compare; `none` models the "unexpected IP address byte slice" panic on
a slice that is neither 4 nor 16 bytes long. -/
def compareIPsEq (x y : Bytes) : Option Bool :=
  let fold : Bytes → Option Bytes := fun a =>
    if a.length = 4 then some a
    else if a.length = 16 then some (if is4In6 a then a.drop 12 else a)
    else none
  match fold x, fold y with
  | some a, some b => some (decide (a = b))
  | _, _ => none

/-- The gopacket layer types the decoding parser reports
(scion.go lines 285-299). -/
inductive Layer where
  | scionL
  | hbh
  | e2e
  | udpL
  | scmp
deriving DecidableEq

/-- The errors of the receive loop (`errUnexpectedPacket`,
`errUnexpectedPacketFlags`, read/decode failures, and the two validation
errors of the external ntp package). -/
inductive NtpErr where
  | readFailed
  | unexpectedPacketFlags
  | decodeFailed
  | unexpectedPacket
  | invalidMetadata
  | invalidTimestamps
deriving DecidableEq

/-- The fields of the decoded NTP response the loop inspects, plus the
verdict of the external `ntp.ValidateMetadata` on the packet. -/
structure NtpResp where
  originTime : Time64
  receiveTime : Time64
  transmitTime : Time64
  metaValid : Bool
deriving DecidableEq

/-- The data of a completed exchange: mode and authentication flags as the
code logs them, the four timestamps handed to the offset/delay computation
and the filter, the filter result, and the updated per-server memory
(`some` exactly when interleaved mode is on). -/
structure ExchangeData where
  interleaved : Bool
  authenticated : Bool
  t0 : ℤ
  t1 : ℤ
  t2 : ℤ
  t3 : ℤ
  offset : ℤ
  weight : ℚ
  newPrev : Option PrevExchange
deriving DecidableEq

/-- What one iteration of the receive loop ends in: `retry` models
`continue`, `fail e` models `return offset, weight, err`, `crash` models a
panic, and `ok` the normal exit of the loop. -/
inductive RecvOutcome where
  | retry
  | fail (e : NtpErr)
  | crash
  | ok (d : ExchangeData)
deriving DecidableEq

/-- The exchange-wide context of the receive loop of
`MeasureClockOffsetSCION`: client mode and memory, whether the DRKey fetch
succeeded (`authKey != nil`), the expected addresses, this round request
data, the deadline state at the anomaly checks, and the external
collaborators (`ntp.TimeFromTime64`, `ntp.Time64FromTime`,
`ntp.ValidateTimestamps`, the `filter` hook). -/
structure RecvEnv where
  interleavedMode : Bool
  prev : PrevExchange
  authKeySet : Bool
  remoteIA : ℕ
  localIA : ℕ
  remoteHostIP : Bytes
  localHostIP : Bytes
  reference : String
  reqTransmit : Time64
  cTxTime1 : ℤ
  deadlineIsSet : Bool
  nowBeforeDeadline : Bool
  conv : Time64 → ℤ
  conv64 : ℤ → Time64
  vts : ℤ → ℤ → ℤ → ℤ → Option NtpErr
  flt : String → ℤ → ℤ → ℤ → ℤ → ℤ × ℚ

/-- One received datagram with everything the loop inspects about it:
read result, socket flags, kernel RX timestamp from OOB data (`none` models
a parse failure, falling back to `timebase.Now()` = `nowFallback`), decode
verdict and decoded layer list, SCION addresses, the parsed E2E timestamp
option when present, the authenticator option data when present, the verdict
of the constant-time CMAC comparison, and the decoded NTP payload. -/
structure RecvPacket where
  readErr : Bool
  flags : ℕ
  oobTime : Option ℤ
  nowFallback : ℤ
  decodeOk : Bool
  decoded : List Layer
  srcIA : ℕ
  dstIA : ℕ
  rawSrc : Bytes
  rawDst : Bytes
  tsOptTime : Option ℤ
  authOpt : Option Bytes
  macMatches : Bool
  resp : Option NtpResp

/-- The anomaly pattern of the receive loop (for example scion.go lines
264-271): keep reading while a deadline is set and `timebase.Now()` is still
before it, otherwise surface the error to the caller. -/
def anomalyOutcome (deadlineIsSet nowBefore : Bool) (e : NtpErr) :
    RecvOutcome :=
  if deadlineIsSet = true ∧ nowBefore = true then .retry else .fail e

/-- The SPI read back from option data (scion.go lines 338-341,
big-endian). -/
def parseSpi (d : Bytes) : ℕ :=
  d.getD 3 0 + d.getD 2 0 * 2 ^ 8 + d.getD 1 0 * 2 ^ 16 + d.getD 0 0 * 2 ^ 24

/-- Whether the CMAC verification runs for this packet (scion.go lines
331-343): a key is present and the E2E layer carries an authenticator option
whose SPI is the server SPI and whose algorithm byte is CMAC.
`Except.error ()` models the "unexpected authenticator option data" panic on
an option of the wrong length. -/
def authCheck (authKeySet hasE2E : Bool) : Option Bytes → Except Unit Bool
  | none => .ok false
  | some d =>
    if authKeySet = true ∧ hasE2E = true then
      if d.length ≠ PacketAuthOptDataLen then .error ()
      else .ok (decide (parseSpi d = PacketAuthServerSPI ∧
          d.getD 4 0 = PacketAuthAlgorithm))
    else .ok false

/-- `validType` (scion.go lines 298-299): at least two decoded layers, the
last being SCION/UDP. -/
def validTypeB (p : RecvPacket) : Bool :=
  decide (2 ≤ p.decoded.length) &&
    decide (p.decoded.getLast? = some Layer.udpL)

/-- Whether an E2E extension layer was decoded (scion.go lines 322-323). -/
def hasE2EB (p : RecvPacket) : Bool :=
  decide (3 ≤ p.decoded.length) &&
    decide (p.decoded.get? (p.decoded.length - 2) = some Layer.e2e)

/-- The client RX instant used for the exchange: the kernel OOB timestamp
(or the `timebase.Now()` fallback), replaced by the E2E timestamp option
when one is present and parses (scion.go lines 272-277 and 324-330). -/
def recvCRx (p : RecvPacket) : ℤ :=
  let c0 := p.oobTime.getD p.nowFallback
  if hasE2EB p then p.tsOptTime.getD c0 else c0

/-- `t0` of the exchange (scion.go lines 404, 409). -/
def selT0 (env : RecvEnv) (interleaved : Bool) : ℤ :=
  if interleaved then env.conv env.prev.cTxTime else env.cTxTime1

/-- `t1` of the exchange (scion.go lines 405, 410). -/
def selT1 (env : RecvEnv) (interleaved : Bool) (resp : NtpResp) : ℤ :=
  if interleaved then env.conv env.prev.sRxTime
  else env.conv resp.receiveTime

/-- `t2` of the exchange: the server TX time in both modes
(scion.go lines 406, 411). -/
def selT2 (env : RecvEnv) (resp : NtpResp) : ℤ :=
  env.conv resp.transmitTime

/-- `t3` of the exchange (scion.go lines 407, 412). -/
def selT3 (env : RecvEnv) (interleaved : Bool) (cRx : ℤ) : ℤ :=
  if interleaved then env.conv env.prev.cRxTime else cRx

/-- Tail of a loop iteration once the NTP payload is decoded and classified
(scion.go lines 392-438): metadata validation (an error returns at once),
timestamp selection, the timestamp validation called as
`ntp.ValidateTimestamps(t0, t1, t1, t3)` (an error returns at once), the
`filter` hook, and the update of the per-server memory with this round
`(cTxTime1, cRxTime, sRxTime)` when interleaved mode is on. -/
def finishResp (env : RecvEnv) (authenticated interleaved : Bool) (cRx : ℤ)
    (resp : NtpResp) : RecvOutcome :=
  if resp.metaValid = false then .fail .invalidMetadata
  else
    match env.vts (selT0 env interleaved) (selT1 env interleaved resp)
        (selT1 env interleaved resp) (selT3 env interleaved cRx) with
    | some e => .fail e
    | none =>
      let ow := env.flt env.reference (selT0 env interleaved)
        (selT1 env interleaved resp) (selT2 env resp)
        (selT3 env interleaved cRx)
      .ok ⟨interleaved, authenticated, selT0 env interleaved,
        selT1 env interleaved resp, selT2 env resp,
        selT3 env interleaved cRx, ow.1, ow.2,
        if env.interleavedMode = true then
          some ⟨env.reference, env.conv64 env.cTxTime1, env.conv64 cRx,
            resp.receiveTime⟩
        else none⟩

/-- Interleaved-versus-basic classification and the origin check
(scion.go lines 380-390), then `finishResp`. -/
def processResp (env : RecvEnv) (authenticated : Bool) (cRx : ℤ)
    (resp : NtpResp) : RecvOutcome :=
  if env.interleavedMode = true ∧ resp.originTime = env.prev.cRxTime then
    finishResp env authenticated true cRx resp
  else if resp.originTime ≠ env.reqTransmit then
    anomalyOutcome env.deadlineIsSet env.nowBeforeDeadline .unexpectedPacket
  else
    finishResp env authenticated false cRx resp

/-- One full iteration of the receive loop of `MeasureClockOffsetSCION`
(scion.go lines 253-439): read result and flags, decode, layer shape,
source/destination validation, E2E options and CMAC verification, NTP
payload decode, then `processResp`. -/
def recvStep (env : RecvEnv) (p : RecvPacket) : RecvOutcome :=
  if p.readErr = true then
    anomalyOutcome env.deadlineIsSet env.nowBeforeDeadline .readFailed
  else if p.flags ≠ 0 then
    anomalyOutcome env.deadlineIsSet env.nowBeforeDeadline
      .unexpectedPacketFlags
  else if p.decodeOk = false then
    anomalyOutcome env.deadlineIsSet env.nowBeforeDeadline .decodeFailed
  else if validTypeB p = false then
    anomalyOutcome env.deadlineIsSet env.nowBeforeDeadline .unexpectedPacket
  else
    match compareIPsEq p.rawSrc env.remoteHostIP,
        compareIPsEq p.rawDst env.localHostIP with
    | some srcEq, some dstEq =>
      if ¬ ((p.srcIA = env.remoteIA ∧ srcEq = true) ∧
          (p.dstIA = env.localIA ∧ dstEq = true)) then
        anomalyOutcome env.deadlineIsSet env.nowBeforeDeadline
          .unexpectedPacket
      else
        match authCheck env.authKeySet (hasE2EB p) p.authOpt with
        | .error _ => .crash
        | .ok verify =>
          if verify = true ∧ p.macMatches = false then .retry
          else
            match p.resp with
            | none =>
              anomalyOutcome env.deadlineIsSet env.nowBeforeDeadline
                .decodeFailed
            | some resp =>
              processResp env (verify && p.macMatches) (recvCRx p) resp
    | _, _ => .crash

/-- A packet that passes the framing stages of the receive loop: read
succeeded, no flags, decode succeeded, valid layer shape, and source and
destination match the exchange. -/
def passesFraming (env : RecvEnv) (p : RecvPacket) : Prop :=
  p.readErr = false ∧ p.flags = 0 ∧ p.decodeOk = true ∧
  validTypeB p = true ∧
  compareIPsEq p.rawSrc env.remoteHostIP = some true ∧
  compareIPsEq p.rawDst env.localHostIP = some true ∧
  p.srcIA = env.remoteIA ∧ p.dstIA = env.localIA

theorem recvStep_framing (env : RecvEnv) (p : RecvPacket)
    (h : passesFraming env p) :
    recvStep env p =
      match authCheck env.authKeySet (hasE2EB p) p.authOpt with
      | .error _ => .crash
      | .ok verify =>
        if verify = true ∧ p.macMatches = false then .retry
        else
          match p.resp with
          | none =>
            anomalyOutcome env.deadlineIsSet env.nowBeforeDeadline
              .decodeFailed
          | some resp =>
            processResp env (verify && p.macMatches) (recvCRx p) resp := by
  obtain ⟨h1, h2, h3, h4, h5, h6, h7, h8⟩ := h
  rw [recvStep, if_neg (by simp [h1]), if_neg (by simp [h2]),
    if_neg (by simp [h3]), if_neg (by simp [h4])]
  simp only [h5, h6]
  rw [if_neg (by simp [h7, h8])]

/-! ## Claims about the NTP-over-SCION client -/

/-- C4: with `InterleavedMode` enabled, the outgoing request carries the
previous `(sRxTime, cRxTime, cTxTime)` as origin/receive/transmit exactly
when the stored reference matches this exchange and the previous client TX
time is at most one second older than this round TX time; in every other
case — no previous exchange (the initial memory holds an empty reference
string, never equal to an actual `IA + "," + host` string), a different
reference, or a previous exchange more than one second old — the request
carries the fresh TX time in transmit and zero in origin and receive. -/
theorem request_construction (prev : PrevExchange) (reference : String)
    (conv : Time64 → ℤ) (conv64 : ℤ → Time64) (cTxTime0 : ℤ) :
    (reference = prev.reference ∧ cTxTime0 - conv prev.cTxTime ≤ secondNs →
      buildRequest true prev reference conv conv64 cTxTime0 =
        ⟨prev.sRxTime, prev.cRxTime, prev.cTxTime⟩) ∧
    (reference ≠ prev.reference ∨ secondNs < cTxTime0 - conv prev.cTxTime →
      buildRequest true prev reference conv conv64 cTxTime0 =
        ⟨Time64.zero, Time64.zero, conv64 cTxTime0⟩) := by
  constructor
  · intro h
    rw [buildRequest, if_pos ⟨rfl, h.1, h.2⟩]
  · intro h
    rw [buildRequest, if_neg]
    rintro ⟨-, he, hle⟩
    rcases h with h | h
    · exact h he
    · exact absurd hle (not_le.mpr h)

/-- Witness for `request_construction`: a previous exchange with the same
reference, 0.5 s old, produces the interleaved request; one 2 s old falls
back to the fresh request. -/
theorem request_construction_witness :
    buildRequest true ⟨"r", ⟨10, 0⟩, ⟨11, 0⟩, ⟨12, 0⟩⟩ "r"
        (fun t => (t.seconds : ℤ) * secondNs) (fun n => ⟨n.toNat, 0⟩)
        (10 * secondNs + 5 * 10 ^ 8) =
      ⟨⟨12, 0⟩, ⟨11, 0⟩, ⟨10, 0⟩⟩ ∧
    buildRequest true ⟨"r", ⟨10, 0⟩, ⟨11, 0⟩, ⟨12, 0⟩⟩ "r"
        (fun t => (t.seconds : ℤ) * secondNs) (fun n => ⟨n.toNat, 0⟩)
        (12 * secondNs) =
      ⟨Time64.zero, Time64.zero, ⟨12 * 10 ^ 9, 0⟩⟩ := by
  constructor
  · exact (request_construction ⟨"r", ⟨10, 0⟩, ⟨11, 0⟩, ⟨12, 0⟩⟩ "r"
      (fun t => (t.seconds : ℤ) * secondNs) (fun n => ⟨n.toNat, 0⟩)
      (10 * secondNs + 5 * 10 ^ 8)).1 ⟨rfl, by norm_num [secondNs]⟩
  · have h := (request_construction ⟨"r", ⟨10, 0⟩, ⟨11, 0⟩, ⟨12, 0⟩⟩ "r"
      (fun t => (t.seconds : ℤ) * secondNs) (fun n => ⟨n.toNat, 0⟩)
      (12 * secondNs)).2 (Or.inr (by norm_num [secondNs]))
    rw [h]
    norm_num [secondNs]
    rfl

/-- C3: with `InterleavedMode` enabled, a decoded response whose origin
equals the stored previous `cRxTime` is treated as interleaved, and the four
timestamps used for the offset and delay computation are the previous
`cTxTime`, the previous `sRxTime`, this response `TransmitTime`, and the
previous `cRxTime`; any response not matching the interleaved condition must
carry this round request `TransmitTime` as origin, a mismatch being treated
as the unexpected-packet error. -/
theorem interleaved_classification (env : RecvEnv) (authenticated : Bool)
    (cRx : ℤ) (resp : NtpResp) (hmode : env.interleavedMode = true) :
    (resp.originTime = env.prev.cRxTime →
      processResp env authenticated cRx resp =
        finishResp env authenticated true cRx resp ∧
      (resp.metaValid = true →
        env.vts (env.conv env.prev.cTxTime) (env.conv env.prev.sRxTime)
          (env.conv env.prev.sRxTime) (env.conv env.prev.cRxTime) = none →
        ∃ d : ExchangeData,
          processResp env authenticated cRx resp = .ok d ∧
          d.interleaved = true ∧
          d.t0 = env.conv env.prev.cTxTime ∧
          d.t1 = env.conv env.prev.sRxTime ∧
          d.t2 = env.conv resp.transmitTime ∧
          d.t3 = env.conv env.prev.cRxTime)) ∧
    (resp.originTime ≠ env.prev.cRxTime →
      (resp.originTime = env.reqTransmit →
        processResp env authenticated cRx resp =
          finishResp env authenticated false cRx resp) ∧
      (resp.originTime ≠ env.reqTransmit →
        processResp env authenticated cRx resp =
          anomalyOutcome env.deadlineIsSet env.nowBeforeDeadline
            .unexpectedPacket)) := by
  constructor
  · intro ho
    have heq : processResp env authenticated cRx resp =
        finishResp env authenticated true cRx resp := by
      rw [processResp, if_pos ⟨hmode, ho⟩]
    refine ⟨heq, fun hm hv => ?_⟩
    have hs0 : selT0 env true = env.conv env.prev.cTxTime := rfl
    have hs1 : selT1 env true resp = env.conv env.prev.sRxTime := rfl
    have hs3 : selT3 env true cRx = env.conv env.prev.cRxTime := rfl
    rw [heq, finishResp, if_neg (by simp [hm]), hs0, hs1, hs3, hv]
    exact ⟨_, rfl, rfl, rfl, rfl, rfl, rfl⟩
  · intro ho
    constructor
    · intro he
      rw [processResp, if_neg (by rintro ⟨-, h⟩; exact ho h),
        if_neg (fun hn => hn he)]
    · intro hne
      rw [processResp, if_neg (by rintro ⟨-, h⟩; exact ho h), if_pos hne]

/-- A concrete exchange context for the witnesses: interleaved mode on, a
stored previous exchange, matching addresses, a validation oracle that
accepts, and the identity-like conversions. -/
def wEnv : RecvEnv where
  interleavedMode := true
  prev := ⟨"ia,host", ⟨100, 0⟩, ⟨103, 0⟩, ⟨101, 0⟩⟩
  authKeySet := true
  remoteIA := 7
  localIA := 3
  remoteHostIP := [10, 0, 0, 2]
  localHostIP := [10, 0, 0, 1]
  reference := "ia,host"
  reqTransmit := ⟨100, 0⟩
  cTxTime1 := 200
  deadlineIsSet := true
  nowBeforeDeadline := true
  conv := fun t => (t.seconds : ℤ)
  conv64 := fun n => ⟨n.toNat, 0⟩
  vts := fun _ _ _ _ => none
  flt := fun _ t0 t1 t2 t3 => ((t1 - t0 + (t2 - t3)) / 2, 1000)

/-- A concrete well-formed received datagram for the witnesses: it decodes
to SCION/E2E/UDP, matches the addresses of `wEnv`, carries no authenticator
option, and its NTP payload answers the previous round. -/
def wPkt : RecvPacket where
  readErr := false
  flags := 0
  oobTime := some 205
  nowFallback := 206
  decodeOk := true
  decoded := [Layer.scionL, Layer.e2e, Layer.udpL]
  srcIA := 7
  dstIA := 3
  rawSrc := [10, 0, 0, 2]
  rawDst := [10, 0, 0, 1]
  tsOptTime := none
  authOpt := none
  macMatches := true
  resp := some ⟨⟨103, 0⟩, ⟨102, 0⟩, ⟨104, 0⟩, true⟩

/-- Witness for `interleaved_classification`: the response of `wPkt` carries
`origin = prev.cRxTime` and is classified interleaved with the previous-round
timestamps. -/
theorem interleaved_classification_witness :
    ∃ d : ExchangeData,
      processResp wEnv false 205 ⟨⟨103, 0⟩, ⟨102, 0⟩, ⟨104, 0⟩, true⟩ =
        .ok d ∧
      d.interleaved = true ∧ d.t0 = 100 ∧ d.t1 = 101 ∧ d.t2 = 104 ∧
      d.t3 = 103 := by
  obtain ⟨h1, -⟩ := interleaved_classification wEnv false 205
    ⟨⟨103, 0⟩, ⟨102, 0⟩, ⟨104, 0⟩, true⟩ rfl
  obtain ⟨d, hd, hint, h0, hh1, hh2, hh3⟩ := (h1 rfl).2 rfl rfl
  exact ⟨d, hd, hint, by rw [h0]; rfl, by rw [hh1]; rfl, by rw [hh2]; rfl,
    by rw [hh3]; rfl⟩

/-- C6: once the four timestamps of the exchange are determined, the
timestamp validation is invoked as `ValidateTimestamps(t0, t1, t1, t3)` —
`t1` is passed twice and `t2` never enters (the outcome is unchanged under
any replacement of the response transmit time, which only `t2` reflects) —
and a validation error is returned to the caller at once, without the
continue-until-deadline treatment of the anomaly path. -/
theorem validate_timestamps_call (env : RecvEnv)
    (authenticated interleaved : Bool) (cRx : ℤ) (resp : NtpResp)
    (hmeta : resp.metaValid = true) :
    (∀ e, env.vts (selT0 env interleaved) (selT1 env interleaved resp)
        (selT1 env interleaved resp) (selT3 env interleaved cRx) = some e →
      finishResp env authenticated interleaved cRx resp = .fail e ∧
      ∀ tt, finishResp env authenticated interleaved cRx
          { resp with transmitTime := tt } = .fail e) ∧
    (env.vts (selT0 env interleaved) (selT1 env interleaved resp)
        (selT1 env interleaved resp) (selT3 env interleaved cRx) = none →
      ∃ d : ExchangeData,
        finishResp env authenticated interleaved cRx resp = .ok d ∧
        d.t0 = selT0 env interleaved ∧ d.t1 = selT1 env interleaved resp ∧
        d.t2 = selT2 env resp ∧ d.t3 = selT3 env interleaved cRx) := by
  constructor
  · intro e he
    constructor
    · rw [finishResp, if_neg (by simp [hmeta]), he]
    · intro tt
      have hr : selT1 env interleaved { resp with transmitTime := tt } =
          selT1 env interleaved resp := rfl
      rw [finishResp, if_neg (by simp [hmeta]), hr, he]
  · intro hn
    rw [finishResp, if_neg (by simp [hmeta]), hn]
    exact ⟨_, rfl, rfl, rfl, rfl, rfl⟩

/-- A variant of `wEnv` whose timestamp validation oracle rejects. -/
def wEnvBad : RecvEnv :=
  { wEnv with vts := fun _ _ _ _ => some NtpErr.invalidTimestamps }

/-- Witness for `validate_timestamps_call`: under a rejecting validation the
exchange fails immediately even though the deadline is not yet reached. -/
theorem validate_timestamps_call_witness :
    finishResp wEnvBad false true 205 ⟨⟨103, 0⟩, ⟨102, 0⟩, ⟨104, 0⟩, true⟩ =
      .fail NtpErr.invalidTimestamps ∧
    wEnvBad.nowBeforeDeadline = true := by
  refine ⟨?_, rfl⟩
  exact ((validate_timestamps_call wEnvBad false true 205
    ⟨⟨103, 0⟩, ⟨102, 0⟩, ⟨104, 0⟩, true⟩ rfl).1 NtpErr.invalidTimestamps
    rfl).1

theorem anomalyOutcome_retry {ds nb : Bool} (h1 : ds = true)
    (h2 : nb = true) (e : NtpErr) : anomalyOutcome ds nb e = .retry := by
  rw [anomalyOutcome, if_pos ⟨h1, h2⟩]

theorem anomalyOutcome_fail {ds nb : Bool} (h2 : nb = false) (e : NtpErr) :
    anomalyOutcome ds nb e = .fail e := by
  rw [anomalyOutcome, if_neg]
  simp [h2]

theorem anomalyOutcome_ne_ok (ds nb : Bool) (e : NtpErr)
    (d : ExchangeData) : anomalyOutcome ds nb e ≠ .ok d := by
  rw [anomalyOutcome]
  split <;> simp

theorem finishResp_ok_authenticated (env : RecvEnv)
    (a interleaved : Bool) (cRx : ℤ) (resp : NtpResp) (d : ExchangeData)
    (h : finishResp env a interleaved cRx resp = .ok d) :
    d.authenticated = a := by
  rw [finishResp] at h
  by_cases hm : resp.metaValid = false
  · rw [if_pos hm] at h
    cases h
  · rw [if_neg hm] at h
    cases hv : env.vts (selT0 env interleaved) (selT1 env interleaved resp)
        (selT1 env interleaved resp) (selT3 env interleaved cRx) with
    | some e =>
      simp only [hv] at h
      cases h
    | none =>
      simp only [hv] at h
      cases h
      rfl

theorem processResp_ok_authenticated (env : RecvEnv) (a : Bool) (cRx : ℤ)
    (resp : NtpResp) (d : ExchangeData)
    (h : processResp env a cRx resp = .ok d) : d.authenticated = a := by
  rw [processResp] at h
  by_cases h1 : env.interleavedMode = true ∧ resp.originTime = env.prev.cRxTime
  · rw [if_pos h1] at h
    exact finishResp_ok_authenticated env a true cRx resp d h
  · rw [if_neg h1] at h
    by_cases h2 : resp.originTime ≠ env.reqTransmit
    · rw [if_pos h2] at h
      exact absurd h (anomalyOutcome_ne_ok _ _ _ _)
    · rw [if_neg h2] at h
      exact finishResp_ok_authenticated env a false cRx resp d h

/-- C5: the protocol anomalies of the receive loop — unexpected socket
flags, wrong source or destination address, origin mismatch outside the
interleaved classification, failed CMAC verification — do not terminate the
exchange while a set deadline has not yet expired: the loop keeps reading,
and those anomalies surface an error to the caller only once `timebase.Now()`
has passed the deadline (a failed CMAC always re-reads and surfaces nothing
itself). -/
theorem anomalies_continue (env : RecvEnv) (p : RecvPacket)
    (hds : env.deadlineIsSet = true) :
    (p.readErr = false → p.flags ≠ 0 →
      (env.nowBeforeDeadline = true → recvStep env p = .retry) ∧
      (env.nowBeforeDeadline = false →
        recvStep env p = .fail .unexpectedPacketFlags)) ∧
    (p.readErr = false → p.flags = 0 → p.decodeOk = true →
      validTypeB p = true →
      ∀ srcEq dstEq, compareIPsEq p.rawSrc env.remoteHostIP = some srcEq →
        compareIPsEq p.rawDst env.localHostIP = some dstEq →
        ¬ ((p.srcIA = env.remoteIA ∧ srcEq = true) ∧
           (p.dstIA = env.localIA ∧ dstEq = true)) →
        (env.nowBeforeDeadline = true → recvStep env p = .retry) ∧
        (env.nowBeforeDeadline = false →
          recvStep env p = .fail .unexpectedPacket)) ∧
    (∀ verify resp, passesFraming env p →
      authCheck env.authKeySet (hasE2EB p) p.authOpt = .ok verify →
      (verify = true → p.macMatches = true) →
      p.resp = some resp →
      ¬ (env.interleavedMode = true ∧ resp.originTime = env.prev.cRxTime) →
      resp.originTime ≠ env.reqTransmit →
      (env.nowBeforeDeadline = true → recvStep env p = .retry) ∧
      (env.nowBeforeDeadline = false →
        recvStep env p = .fail .unexpectedPacket)) ∧
    (passesFraming env p →
      authCheck env.authKeySet (hasE2EB p) p.authOpt = .ok true →
      p.macMatches = false →
      ∀ nb, recvStep { env with nowBeforeDeadline := nb } p = .retry) := by
  refine ⟨?_, ?_, ?_, ?_⟩
  · intro h1 hf
    rw [recvStep, if_neg (by simp [h1]), if_pos hf]
    exact ⟨fun hnb => anomalyOutcome_retry hds hnb _,
      fun hnb => anomalyOutcome_fail hnb _⟩
  · intro h1 h2 h3 h4 srcEq dstEq h5 h6 h7
    rw [recvStep, if_neg (by simp [h1]), if_neg (by simp [h2]),
      if_neg (by simp [h3]), if_neg (by simp [h4])]
    simp only [h5, h6]
    rw [if_pos h7]
    exact ⟨fun hnb => anomalyOutcome_retry hds hnb _,
      fun hnb => anomalyOutcome_fail hnb _⟩
  · intro verify resp hfr hauth hmac hresp hni hne
    rw [recvStep_framing env p hfr]
    simp only [hauth]
    rw [if_neg (by rintro ⟨hv, hm⟩; rw [hmac hv] at hm; cases hm)]
    simp only [hresp]
    rw [processResp, if_neg hni, if_pos hne]
    exact ⟨fun hnb => anomalyOutcome_retry hds hnb _,
      fun hnb => anomalyOutcome_fail hnb _⟩
  · intro hfr hauth hmm nb
    have hfr' : passesFraming { env with nowBeforeDeadline := nb } p := by
      obtain ⟨a1, a2, a3, a4, a5, a6, a7, a8⟩ := hfr
      exact ⟨a1, a2, a3, a4, a5, a6, a7, a8⟩
    rw [recvStep_framing { env with nowBeforeDeadline := nb } p hfr']
    simp only [hauth]
    rw [if_pos (by simp [hmm])]

/-- Witness for `anomalies_continue`: a datagram with unexpected socket
flags is retried while the deadline of `wEnv` is unexpired. -/
theorem anomalies_continue_witness :
    recvStep wEnv { wPkt with flags := 1 } = .retry :=
  ((anomalies_continue wEnv { wPkt with flags := 1 } rfl).1 rfl
    (by decide)).1 rfl

/-- C7: with a DRKey fetcher configured, CMAC verification runs only when
the key fetch succeeded (`authKey != nil`) and the decoded response carries
an E2E authenticator option of full length whose SPI is the server SPI and
whose algorithm byte is CMAC — otherwise the outcome is independent of the
MAC comparison; when the key fetch fails the request goes out without an
authenticator option; a response lacking an authenticator option is accepted
and completes with `authenticated = false`; and only a present, matching
authenticator whose recomputed CMAC mismatches makes the loop discard the
packet. -/
theorem auth_policy (env : RecvEnv) (p : RecvPacket) :
    (∀ mac : Bytes, outgoingAuthOption true false mac = none) ∧
    (∀ (a h2 : Bool) (o : Option Bytes), authCheck a h2 o = .ok true ↔
      a = true ∧ h2 = true ∧ ∃ d : Bytes, o = some d ∧
        d.length = PacketAuthOptDataLen ∧
        parseSpi d = PacketAuthServerSPI ∧
        d.getD 4 0 = PacketAuthAlgorithm) ∧
    (authCheck env.authKeySet (hasE2EB p) p.authOpt ≠ .ok true →
      recvStep env { p with macMatches := true } =
        recvStep env { p with macMatches := false }) ∧
    (passesFraming env p →
      authCheck env.authKeySet (hasE2EB p) p.authOpt = .ok true →
      p.macMatches = false → recvStep env p = .retry) ∧
    (∀ resp, passesFraming env p →
      authCheck env.authKeySet (hasE2EB p) p.authOpt = .ok false →
      p.resp = some resp →
      recvStep env p = processResp env false (recvCRx p) resp ∧
      ∀ d, processResp env false (recvCRx p) resp = .ok d →
        d.authenticated = false) := by
  refine ⟨fun mac => by rw [outgoingAuthOption, if_neg (by simp)],
    ?_, ?_, ?_, ?_⟩
  · intro a h2 o
    constructor
    · intro h
      cases o with
      | none =>
        rw [authCheck] at h
        simp at h
      | some d =>
        rw [authCheck] at h
        by_cases hc : a = true ∧ h2 = true
        · rw [if_pos hc] at h
          by_cases hl : d.length ≠ PacketAuthOptDataLen
          · rw [if_pos hl] at h
            cases h
          · rw [if_neg hl] at h
            have hd := of_decide_eq_true (Except.ok.inj h)
            exact ⟨hc.1, hc.2, d, rfl, not_not.mp hl, hd.1, hd.2⟩
        · rw [if_neg hc] at h
          simp at h
    · rintro ⟨ha, hh, d, rfl, hlen, hspi, halg⟩
      rw [authCheck, if_pos ⟨ha, hh⟩, if_neg (by simp [hlen])]
      have hdec : decide (parseSpi d = PacketAuthServerSPI ∧
          d.getD 4 0 = PacketAuthAlgorithm) = true := by
        rw [decide_eq_true_eq]
        exact ⟨hspi, halg⟩
      rw [hdec]
  · intro hne
    have e1 : ∀ b : Bool, validTypeB { p with macMatches := b } =
        validTypeB p := fun _ => rfl
    have e2 : ∀ b : Bool, hasE2EB { p with macMatches := b } = hasE2EB p :=
      fun _ => rfl
    have e3 : ∀ b : Bool, recvCRx { p with macMatches := b } = recvCRx p :=
      fun _ => rfl
    have e4 : ∀ b : Bool,
        ({ p with macMatches := b } : RecvPacket).readErr = p.readErr :=
      fun _ => rfl
    have e5 : ∀ b : Bool,
        ({ p with macMatches := b } : RecvPacket).flags = p.flags :=
      fun _ => rfl
    have e6 : ∀ b : Bool,
        ({ p with macMatches := b } : RecvPacket).decodeOk = p.decodeOk :=
      fun _ => rfl
    have e7 : ∀ b : Bool,
        ({ p with macMatches := b } : RecvPacket).rawSrc = p.rawSrc :=
      fun _ => rfl
    have e8 : ∀ b : Bool,
        ({ p with macMatches := b } : RecvPacket).rawDst = p.rawDst :=
      fun _ => rfl
    have e9 : ∀ b : Bool,
        ({ p with macMatches := b } : RecvPacket).srcIA = p.srcIA :=
      fun _ => rfl
    have e10 : ∀ b : Bool,
        ({ p with macMatches := b } : RecvPacket).dstIA = p.dstIA :=
      fun _ => rfl
    have e11 : ∀ b : Bool,
        ({ p with macMatches := b } : RecvPacket).authOpt = p.authOpt :=
      fun _ => rfl
    have e12 : ∀ b : Bool,
        ({ p with macMatches := b } : RecvPacket).resp = p.resp :=
      fun _ => rfl
    have e13 : ∀ b : Bool,
        ({ p with macMatches := b } : RecvPacket).macMatches = b :=
      fun _ => rfl
    rw [recvStep, recvStep]
    simp only [e1, e2, e3, e4, e5, e6, e7, e8, e9, e10, e11, e12, e13]
    by_cases h1 : p.readErr = true
    · rw [if_pos h1, if_pos h1]
    · rw [if_neg h1, if_neg h1]
      by_cases h2 : p.flags ≠ 0
      · rw [if_pos h2, if_pos h2]
      · rw [if_neg h2, if_neg h2]
        by_cases h3 : p.decodeOk = false
        · rw [if_pos h3, if_pos h3]
        · rw [if_neg h3, if_neg h3]
          by_cases h4 : validTypeB p = false
          · rw [if_pos h4, if_pos h4]
          · rw [if_neg h4, if_neg h4]
            cases hs : compareIPsEq p.rawSrc env.remoteHostIP with
            | none => simp only [hs]
            | some srcEq =>
              cases hd2 : compareIPsEq p.rawDst env.localHostIP with
              | none => simp only [hs, hd2]
              | some dstEq =>
                simp only [hs, hd2]
                by_cases h5 : ¬ ((p.srcIA = env.remoteIA ∧ srcEq = true) ∧
                    (p.dstIA = env.localIA ∧ dstEq = true))
                · rw [if_pos h5, if_pos h5]
                · rw [if_neg h5, if_neg h5]
                  cases hac : authCheck env.authKeySet (hasE2EB p)
                      p.authOpt with
                  | error u => simp only [hac]
                  | ok v =>
                    have hv : v = false := by
                      cases v
                      · rfl
                      · exact absurd hac hne
                    subst hv
                    simp only [hac]
                    rw [if_neg (by simp), if_neg (by simp)]
                    simp only [Bool.false_and]
  · intro hfr hauth hmm
    rw [recvStep_framing env p hfr]
    simp only [hauth]
    rw [if_pos (by simp [hmm])]
  · intro resp hfr hauth hresp
    constructor
    · rw [recvStep_framing env p hfr]
      simp only [hauth]
      rw [if_neg (by simp)]
      simp only [hresp, Bool.false_and]
    · intro d hd
      exact processResp_ok_authenticated env false (recvCRx p) resp d hd

/-- Witness for `auth_policy`: the response of `wPkt` carries no
authenticator option, so it is accepted and any completed exchange data has
`authenticated = false`. -/
theorem auth_policy_witness :
    recvStep wEnv wPkt =
      processResp wEnv false (recvCRx wPkt)
        ⟨⟨103, 0⟩, ⟨102, 0⟩, ⟨104, 0⟩, true⟩ ∧
    ∀ d, processResp wEnv false (recvCRx wPkt)
        ⟨⟨103, 0⟩, ⟨102, 0⟩, ⟨104, 0⟩, true⟩ = .ok d →
      d.authenticated = false :=
  (auth_policy wEnv wPkt).2.2.2.2 ⟨⟨103, 0⟩, ⟨102, 0⟩, ⟨104, 0⟩, true⟩
    ⟨rfl, rfl, rfl, rfl, rfl, rfl, rfl, rfl⟩ rfl rfl
